import Mathlib

/-!
Verification of the evaluation / aggregation pipeline of the
Stereo-3D-Reconstruction repository.

The development shallowly embeds the two source files:

* `src/core/test.py`  — the evaluation loop `test_net`: per-sample IoU at
  multiple thresholds, the taxonomy-keyed metric buckets, and the final
  sample-count-weighted aggregation;
* `src/utils/data_loaders.py` — the ShapeNet sample-index builder
  (`ShapeNetDataLoader.get_files_of_taxonomy`) and the per-sample loader
  (`ShapeNetDataset.get_datum`).

Volumes and tensors are modelled as lists of rationals (flattened voxel
grids); a PyTorch tensor with an explicit dim-1 axis is modelled as a list
of such lists.  File paths are strings, the storage backend is a boolean
predicate on paths, and the path templates of the configuration are
functions.
-/

namespace StereoRecon

/-- A flattened voxel grid (one rational per voxel), as handled by
`test_net` in `src/core/test.py`. -/
abbrev Volume := List ℚ

/-- `torch.ge(v, th).float()` (src/core/test.py line 122): binarize a
volume at threshold `th`, mapping each voxel to `1` when its value is
`≥ th` and to `0` otherwise. -/
def ge_float (v : Volume) (th : ℚ) : Volume :=
  v.map (fun x => if th ≤ x then (1 : ℚ) else 0)

/-- `torch.sum(a.mul(b))` (src/core/test.py line 123): the sum of the
elementwise product of two volumes. -/
def sum_mul (a b : Volume) : ℚ :=
  (List.zipWith (· * ·) a b).sum

/-- `torch.sum(torch.ge(a.add(b), 1))` (src/core/test.py line 124): the
number of positions where the elementwise sum of the two volumes is `≥ 1`,
as a rational. -/
def union_count (a b : Volume) : ℚ :=
  (((List.zipWith (· + ·) a b).filter (fun x => decide ((1 : ℚ) ≤ x))).length : ℚ)

/-- One iteration of the threshold loop of src/core/test.py lines 121-125:
binarize the generated volume at `th`, then divide intersection by union. -/
def iou_at (gen gt : Volume) (th : ℚ) : ℚ :=
  let v := ge_float gen th
  sum_mul v gt / union_count v gt

/-- The `sample_iou` list built by src/core/test.py lines 120-125: one IoU
value per configured threshold, appended in the order of
`cfg.TEST.VOXEL_THRESH`. -/
def sample_iou (gen gt : Volume) (threshs : List ℚ) : List ℚ :=
  threshs.map (iou_at gen gt)

/-- One entry of the `test_iou` dictionary of src/core/test.py lines
128-131: the running sample count and the list of per-sample IoU vectors
of one taxonomy. -/
structure Bucket where
  n_samples : Nat
  iou : List (List ℚ)
deriving DecidableEq

/-- The `test_iou` dictionary: taxonomy id to bucket, in first-encounter
order (Python dicts preserve insertion order). -/
abbrev TestIoU := List (String × Bucket)

/-- src/core/test.py lines 128-131: create the bucket for `tid` lazily
(`{'n_samples': 0, 'iou': []}`), then increment `n_samples` and append the
sample's IoU vector. -/
def addSample : TestIoU → String → List ℚ → TestIoU
  | [], tid, s => [(tid, ⟨1, [s]⟩)]
  | (k, b) :: rest, tid, s =>
    if k = tid then (k, ⟨b.n_samples + 1, b.iou ++ [s]⟩) :: rest
    else (k, b) :: addSample rest tid s

/-- The accumulation performed by the testing loop: fold `addSample` over
the stream of (taxonomy id, per-sample IoU vector) pairs, starting from the
empty dictionary (`test_iou = dict()`, src/core/test.py line 77). -/
def accumulate (entries : List (String × List ℚ)) : TestIoU :=
  entries.foldl (fun m e => addSample m e.1 e.2) []

/-- One sample as seen by the testing loop: its taxonomy id, the fused
generated volume, and the ground-truth volume. -/
structure TestSample where
  taxonomy_id : String
  generated_volume : Volume
  ground_truth_volume : Volume

/-- The `test_iou` dictionary at the end of the testing loop of
src/core/test.py lines 85-131, as a function of the sample stream and the
configured thresholds. -/
def run_test_iou (threshs : List ℚ) (stream : List TestSample) : TestIoU :=
  accumulate (stream.map
    (fun smp => (smp.taxonomy_id, sample_iou smp.generated_volume smp.ground_truth_volume threshs)))

/-- `np.mean(vs, axis=0)` on a rectangular list of equal-length rows: the
elementwise mean across rows.  The row length is read off the first row,
exactly as NumPy shapes the result. -/
def mean_axis0 (vs : List (List ℚ)) : List ℚ :=
  match vs with
  | [] => []
  | v :: _ => (List.range v.length).map
      (fun j => (vs.map (fun w => w.getD j 0)).sum / (vs.length : ℚ))

/-- `np.sum(vs, axis=0)` on a rectangular list of equal-length rows: the
elementwise sum across rows. -/
def sum_axis0 (vs : List (List ℚ)) : List ℚ :=
  match vs with
  | [] => []
  | v :: _ => (List.range v.length).map
      (fun j => (vs.map (fun w => w.getD j 0)).sum)

/-- Elementwise multiplication of a vector by a scalar
(`vector * n_samples` in src/core/test.py line 159). -/
def scaleBy (v : List ℚ) (c : ℚ) : List ℚ :=
  v.map (· * c)

/-- Elementwise division of a vector by a scalar
(`/ n_samples` in src/core/test.py line 160). -/
def divideBy (v : List ℚ) (c : ℚ) : List ℚ :=
  v.map (· / c)

/-- src/core/test.py lines 156-160: for each taxonomy, reduce its IoU list
to an elementwise mean, multiply by that taxonomy's `n_samples`, sum the
scaled vectors over all taxonomies, and divide by `n_samples`
(= `len(test_data_loader)`, the number of samples processed by the loop). -/
def compute_overall (m : TestIoU) (n_samples : Nat) : List ℚ :=
  divideBy (sum_axis0 (m.map (fun p => scaleBy (mean_axis0 p.2.iou) (p.2.n_samples : ℚ))))
    (n_samples : ℚ)

/-- Total number of samples recorded across all taxonomy buckets. -/
def total_samples (m : TestIoU) : Nat :=
  (m.map (fun p => p.2.n_samples)).sum

/-- The overall mean IoU vector exactly as the spec words it: the sum over
taxonomies of (per-taxonomy elementwise-mean IoU vector × that taxonomy's
sample count), divided by the total sample count across all taxonomies. -/
def weighted_overall (m : TestIoU) : List ℚ :=
  divideBy (sum_axis0 (m.map (fun p => scaleBy (mean_axis0 p.2.iou) (p.2.n_samples : ℚ))))
    ((total_samples m : ℚ))

/-- The simple (unweighted) elementwise average of the per-taxonomy mean
IoU vectors, as the spec words it for the equal-counts special case. -/
def simple_average (m : TestIoU) : List ℚ :=
  divideBy (sum_axis0 (m.map (fun p => mean_axis0 p.2.iou))) (m.length : ℚ)

/-! ### Volume fusion (src/core/test.py lines 104-108)

A batched tensor is modelled by its dim-1 axis made explicit: a list of
slices, each slice a flattened list of rationals.  `torch.cat(·, dim=1)` is
then list append, and `torch.mean(·, dim=1)` is the elementwise mean across
the dim-1 slices, i.e. `mean_axis0`. -/

/-- src/core/test.py lines 107-108:
`torch.mean(torch.cat((left, right), dim=1), dim=1)`. -/
def fuse_volumes (left right : List (List ℚ)) : List ℚ :=
  mean_axis0 (left ++ right)

/-- Modelled from the spec: the reconstruction model (`RecNet`,
`src/models/recnet.py`, not present under src/) is an opaque function
returning one volume estimate per call; per the spec's §4.3 the fusion
treats its dim-1 axis as the axis the two estimates are stacked along, so
each estimate occupies a single dim-1 slice. -/
def recnet_output (v : Volume) : List (List ℚ) :=
  [v]

/-- The fusion policy as the spec words it: stack the two volumes along a
new axis and take the elementwise mean over that axis. -/
def spec_stack_mean (a b : Volume) : List ℚ :=
  mean_axis0 [a, b]

/-! ### The IoU formula as the spec words it (for the refinement claim) -/

/-- The per-sample IoU vector exactly as the spec words it: for each
threshold in configured order, binarize the fused volume at the threshold
(value `≥ τ` maps to 1, else 0), take as intersection the sum of the
elementwise AND with the ground truth, as union the count of positions
where binarized prediction plus ground truth is `≥ 1`, and divide. -/
def spec_sample_iou (gen gt : Volume) (threshs : List ℚ) : List ℚ :=
  threshs.map (fun th =>
    let bin := gen.map (fun x => if x ≥ th then (1 : ℚ) else 0)
    let inter := (List.zipWith (fun x y => if x = 1 ∧ y = 1 then (1 : ℚ) else 0) bin gt).sum
    let uni := (((List.zipWith (· + ·) bin gt).filter (fun x => decide ((1 : ℚ) ≤ x))).length : ℚ)
    inter / uni)

/-! ### Sample index builder (src/utils/data_loaders.py lines 116-161) -/

/-- One element of the file list built by
`ShapeNetDataLoader.get_files_of_taxonomy` (src/utils/data_loaders.py
lines 151-159). -/
structure SampleDescriptor where
  taxonomy_name : String
  sample_name : String
  left_rgb_images : List String
  right_rgb_images : List String
  left_disp_images : List String
  right_disp_images : List String
  volume : String
deriving DecidableEq

/-- The path templates of `cfg.DATASETS.SHAPENET` (src/utils/data_loaders.py
lines 85-89) as functions, together with the storage backend's
`os.path.exists` as a boolean predicate on paths. -/
structure LoaderPaths where
  leftRgbTemplate : String → String → Nat → String
  rightRgbTemplate : String → String → Nat → String
  leftDispTemplate : String → String → Nat → String
  rightDispTemplate : String → String → Nat → String
  volumeTemplate : String → String → String
  pathExists : String → Bool

/-- The descriptor dict built at src/utils/data_loaders.py lines 128-159
for one sample with an existing volume file: the four per-view path lists
cover view indices `0..total_views-1` (the per-view existence check at
lines 141-144 is commented out in the source, so every index is appended to
all four lists). -/
def descriptor_of (c : LoaderPaths) (taxonomy_folder_name sample_name : String)
    (total_views : Nat) : SampleDescriptor where
  taxonomy_name := taxonomy_folder_name
  sample_name := sample_name
  left_rgb_images := (List.range total_views).map
    (c.leftRgbTemplate taxonomy_folder_name sample_name)
  right_rgb_images := (List.range total_views).map
    (c.rightRgbTemplate taxonomy_folder_name sample_name)
  left_disp_images := (List.range total_views).map
    (c.leftDispTemplate taxonomy_folder_name sample_name)
  right_disp_images := (List.range total_views).map
    (c.rightDispTemplate taxonomy_folder_name sample_name)
  volume := c.volumeTemplate taxonomy_folder_name sample_name

/-- `ShapeNetDataLoader.get_files_of_taxonomy` (src/utils/data_loaders.py
lines 116-161): for each sample name, resolve the volume path; when it does
not exist, skip the sample (`continue`, after the warning print) and go on
with the rest; otherwise append the sample's descriptor. -/
def get_files_of_taxonomy (c : LoaderPaths) (taxonomy_folder_name : String)
    (samples : List String) (total_views : Nat) : List SampleDescriptor :=
  samples.filterMap (fun sample_name =>
    let volume_file_path := c.volumeTemplate taxonomy_folder_name sample_name
    if c.pathExists volume_file_path then
      some (descriptor_of c taxonomy_folder_name sample_name total_views)
    else none)

/-! ### Sample loader (src/utils/data_loaders.py lines 48-76) -/

/-- src/utils/data_loaders.py lines 58-62: index the four per-view path
lists of a descriptor at the selected view index (`random.choice` draws the
index from `range(len(left_rgb_images))`); `none` models Python's
`IndexError` when a list is too short. -/
def select_views (d : SampleDescriptor) (i : Nat) :
    Option (String × String × String × String) :=
  match d.left_rgb_images[i]?, d.right_rgb_images[i]?,
      d.left_disp_images[i]?, d.right_disp_images[i]? with
  | some lp, some rp, some ldp, some rdp => some (lp, rp, ldp, rdp)
  | _, _, _, _ => none

/-- Outcome of the volume-loading step of `ShapeNetDataset.get_datum`. -/
inductive VolumeResult where
  /-- `sys.exit(code)`: the process terminates with this exit status. -/
  | procExit (code : Nat)
  /-- Python `KeyError`: the container is non-empty but has no `Volume`
  field. -/
  | keyError
  /-- The loaded ground-truth volume is returned with the sample. -/
  | ok (volume : Volume)
deriving DecidableEq

/-- src/utils/data_loaders.py lines 70-76: the result of
`scipy.io.loadmat` is modelled as an association list from field names to
arrays.  An empty (falsy) container triggers `sys.exit(2)`; otherwise the
`Volume` field is extracted and returned. -/
def load_volume (mat : List (String × Volume)) : VolumeResult :=
  if mat.isEmpty then VolumeResult.procExit 2
  else
    match mat.lookup "Volume" with
    | some v => VolumeResult.ok v
    | none => VolumeResult.keyError

/-! ### Name scopes of src/core/test.py (for the disparity-loss claim)

Python resolves a name at use time against the local function scope and the
module scope; a name bound in neither raises `NameError`.  The lists below
enumerate, from the source text, every name bound in the module scope of
src/core/test.py and every name assigned or bound anywhere inside
`test_net`, plus the names the disparity-loss expression at lines 111-112
refers to. -/

/-- Every name bound at module scope of src/core/test.py: the imports of
lines 5-24 and the function defined at line 26. -/
def test_py_module_names : List String :=
  ["json", "plt", "np", "os", "torch", "torchvision", "utils", "dt",
   "SummaryWriter", "time", "DispNet", "RecNet", "test_net"]

/-- Every name bound inside `test_net` (src/core/test.py lines 26-189):
its seven parameters and every name assigned in its body. -/
def test_net_names : List String :=
  ["cfg", "epoch_idx", "output_dir", "test_data_loader", "test_writer",
   "dispnet", "recnet", "taxonomies", "file", "IMG_SIZE", "CROP_SIZE",
   "test_transforms", "dataset_loader", "checkpoint", "bce_loss",
   "n_samples", "test_iou", "disparity_losses", "voxel_losses",
   "sample_idx", "taxonomy_id", "sample_name", "left_rgb_image",
   "right_rgb_image", "left_depth_image", "right_depth_image",
   "ground_truth_volume", "left_depth_estimated", "right_depth_estimated",
   "left_rgbd_image", "right_rgbd_image", "left_generated_volume",
   "right_generated_volume", "generated_volume", "disparity_loss",
   "voxel_loss", "th", "_volume", "intersection", "union", "sample_iou",
   "img_dir", "gv", "rendering_views", "gtv", "mean_iou", "max_iou"]

/-- The names referred to by the disparity-loss expression at
src/core/test.py lines 111-112. -/
def disparity_loss_refs : List String :=
  ["mse_loss", "left_depth_estimated", "left_depth_images",
   "right_depth_estimated", "right_depth_images"]

/-- All names visible at src/core/test.py line 111. -/
def test_py_visible_names : List String :=
  test_py_module_names ++ test_net_names

/-- Invariant of the `test_iou` dictionary: every per-sample IoU vector
stored in any bucket has length `L`. -/
def bucketLenInv (L : Nat) (m : TestIoU) : Prop :=
  ∀ p ∈ m, ∀ v ∈ p.2.iou, v.length = L

/-! ## Helper lemmas -/

theorem total_samples_nil : total_samples [] = 0 := rfl

theorem total_samples_cons (p : String × Bucket) (t : TestIoU) :
    total_samples (p :: t) = p.2.n_samples + total_samples t := by
  simp [total_samples]

theorem total_samples_addSample (m : TestIoU) (tid : String) (s : List ℚ) :
    total_samples (addSample m tid s) = total_samples m + 1 := by
  induction m with
  | nil => simp [addSample, total_samples]
  | cons p rest ih =>
    obtain ⟨k, b⟩ := p
    by_cases h : k = tid
    · simp [addSample, h, total_samples_cons]
      omega
    · simp [addSample, h, total_samples_cons, ih]
      omega

theorem total_samples_foldl (entries : List (String × List ℚ)) :
    ∀ m : TestIoU,
      total_samples (entries.foldl (fun m e => addSample m e.1 e.2) m)
        = total_samples m + entries.length := by
  induction entries with
  | nil => intro m; simp
  | cons e es ih =>
    intro m
    simp only [List.foldl_cons, List.length_cons]
    rw [ih, total_samples_addSample]
    omega

theorem total_samples_const (c : Nat) :
    ∀ m : TestIoU, (∀ p ∈ m, p.2.n_samples = c) →
      total_samples m = m.length * c := by
  intro m
  induction m with
  | nil => intro _; simp [total_samples]
  | cons p t ih =>
    intro h
    rw [total_samples_cons, h p (List.mem_cons_self _ _), List.length_cons,
      ih (fun q hq => h q (List.mem_cons_of_mem _ hq))]
    ring

/-- The total sample count recorded across the buckets equals the number of
samples the testing loop processed, i.e. `len(test_data_loader)`. -/
theorem total_samples_run (threshs : List ℚ) (stream : List TestSample) :
    total_samples (run_test_iou threshs stream) = stream.length := by
  unfold run_test_iou accumulate
  rw [total_samples_foldl]
  simp [total_samples]

theorem bucketLenInv_addSample (L : Nat) :
    ∀ (m : TestIoU) (tid : String) (s : List ℚ),
      bucketLenInv L m → s.length = L → bucketLenInv L (addSample m tid s) := by
  intro m
  induction m with
  | nil =>
    intro tid s _ hs p hp v hv
    simp only [addSample, List.mem_singleton] at hp
    subst hp
    simp only [List.mem_singleton] at hv
    subst hv
    exact hs
  | cons q rest ih =>
    obtain ⟨k, b⟩ := q
    intro tid s hm hs p hp v hv
    by_cases hk : k = tid
    · simp only [addSample, if_pos hk, List.mem_cons] at hp
      rcases hp with hp | hp
      · subst hp
        simp only [List.mem_append, List.mem_singleton] at hv
        rcases hv with hv | hv
        · exact hm (k, b) (List.mem_cons_self _ _) v hv
        · subst hv; exact hs
      · exact hm p (List.mem_cons_of_mem _ hp) v hv
    · simp only [addSample, if_neg hk, List.mem_cons] at hp
      rcases hp with hp | hp
      · subst hp
        exact hm (k, b) (List.mem_cons_self _ _) v hv
      · exact ih tid s (fun q hq => hm q (List.mem_cons_of_mem _ hq)) hs p hp v hv

theorem bucketLenInv_foldl (L : Nat) :
    ∀ (entries : List (String × List ℚ)) (m : TestIoU),
      bucketLenInv L m → (∀ e ∈ entries, e.2.length = L) →
      bucketLenInv L (entries.foldl (fun m e => addSample m e.1 e.2) m) := by
  intro entries
  induction entries with
  | nil => intro m hm _; simpa using hm
  | cons e es ih =>
    intro m hm he
    simp only [List.foldl_cons]
    exact ih _ (bucketLenInv_addSample L m e.1 e.2 hm (he e (List.mem_cons_self _ _)))
      (fun e' he' => he e' (List.mem_cons_of_mem _ he'))

theorem getD_scaleBy : ∀ (v : List ℚ) (c : ℚ) (j : Nat),
    (scaleBy v c).getD j 0 = v.getD j 0 * c := by
  intro v
  induction v with
  | nil => intro c j; simp [scaleBy]
  | cons a as ih =>
    intro c j
    cases j with
    | zero => simp [scaleBy]
    | succ j => simpa [scaleBy] using ih c j

theorem sum_getD_scaleBy (vs : List (List ℚ)) (c : ℚ) (j : Nat) :
    ((vs.map (fun w => scaleBy w c)).map (fun w => w.getD j 0)).sum
      = (vs.map (fun w => w.getD j 0)).sum * c := by
  rw [List.map_map, ← List.sum_map_mul_right]
  refine congrArg List.sum (List.map_congr_left fun w _ => ?_)
  simpa [Function.comp] using getD_scaleBy w c j

theorem sum_axis0_scaleBy (vs : List (List ℚ)) (c : ℚ) :
    sum_axis0 (vs.map (fun v => scaleBy v c)) = scaleBy (sum_axis0 vs) c := by
  cases vs with
  | nil => rfl
  | cons v t =>
    have h1 : sum_axis0 ((v :: t).map (fun v => scaleBy v c))
        = (List.range (scaleBy v c).length).map
            (fun j => (((v :: t).map (fun v => scaleBy v c)).map (fun w => w.getD j 0)).sum) := rfl
    have h2 : scaleBy (sum_axis0 (v :: t)) c
        = (List.range v.length).map
            (fun j => ((v :: t).map (fun w => w.getD j 0)).sum * c) := by
      show scaleBy ((List.range v.length).map
        (fun j => ((v :: t).map (fun w => w.getD j 0)).sum)) c = _
      simp [scaleBy, List.map_map, Function.comp]
    rw [h1, h2, show (scaleBy v c).length = v.length from by simp [scaleBy]]
    exact List.map_congr_left (fun j _ => sum_getD_scaleBy (v :: t) c j)

theorem ge_float_mem (gen : Volume) (th : ℚ) :
    ∀ x ∈ ge_float gen th, x = 0 ∨ x = 1 := by
  intro x hx
  simp only [ge_float, List.mem_map] at hx
  obtain ⟨y, -, rfl⟩ := hx
  by_cases h : th ≤ y <;> simp [h]

theorem sum_mul_eq_and_sum :
    ∀ (b g : List ℚ), (∀ x ∈ b, x = 0 ∨ x = 1) → (∀ x ∈ g, x = 0 ∨ x = 1) →
      (List.zipWith (· * ·) b g).sum
        = (List.zipWith (fun x y => if x = 1 ∧ y = 1 then (1 : ℚ) else 0) b g).sum := by
  intro b
  induction b with
  | nil => intro g _ _; simp
  | cons x xs ih =>
    intro g hb hg
    cases g with
    | nil => simp
    | cons y ys =>
      have hx := hb x (List.mem_cons_self _ _)
      have hy := hg y (List.mem_cons_self _ _)
      have hrest := ih ys (fun z hz => hb z (List.mem_cons_of_mem _ hz))
        (fun z hz => hg z (List.mem_cons_of_mem _ hz))
      simp only [List.zipWith_cons_cons, List.sum_cons, hrest]
      congr 1
      rcases hx with rfl | rfl <;> rcases hy with rfl | rfl <;> norm_num

theorem sum_mul_nonneg_le_union :
    ∀ (b g : List ℚ), (∀ x ∈ b, x = 0 ∨ x = 1) → (∀ x ∈ g, x = 0 ∨ x = 1) →
      0 ≤ sum_mul b g ∧ sum_mul b g ≤ union_count b g := by
  intro b
  induction b with
  | nil => intro g _ _; simp [sum_mul, union_count]
  | cons x xs ih =>
    intro g hb hg
    cases g with
    | nil => simp [sum_mul, union_count]
    | cons y ys =>
      have hx := hb x (List.mem_cons_self _ _)
      have hy := hg y (List.mem_cons_self _ _)
      obtain ⟨h0, h1⟩ := ih ys (fun z hz => hb z (List.mem_cons_of_mem _ hz))
        (fun z hz => hg z (List.mem_cons_of_mem _ hz))
      simp only [sum_mul, union_count, List.zipWith_cons_cons, List.sum_cons,
        List.filter_cons] at h0 h1 ⊢
      rcases hx with rfl | rfl <;> rcases hy with rfl | rfl <;>
        · norm_num
          constructor <;> linarith

/-! ## Claims -/

/-- C1: for every run with at least one processed sample, the overall mean
IoU vector computed at src/core/test.py lines 156-160 (which divides by
`n_samples = len(test_data_loader)`) equals the sample-count-weighted
average of the per-taxonomy mean IoU vectors — the sum over taxonomies of
(mean vector × taxonomy sample count) divided by the total sample count
across all taxonomies; and on taxonomy A with IoU vectors [0.5,0.6] and
[0.7,0.8] plus taxonomy B with [0.2,0.3], the overall vector is
([0.6,0.7]·2 + [0.2,0.3]·1)/3 = [7/15, 17/30]. -/
theorem c1_overall_is_weighted_average (threshs : List ℚ) (stream : List TestSample)
    (_hne : stream ≠ []) :
    compute_overall (run_test_iou threshs stream) stream.length
      = weighted_overall (run_test_iou threshs stream) ∧
    compute_overall
        (accumulate [("A", [1/2, 3/5]), ("A", [7/10, 4/5]), ("B", [1/5, 3/10])]) 3
      = [7/15, 17/30] := by
  constructor
  · unfold compute_overall weighted_overall
    rw [total_samples_run]
  · have hacc : accumulate [("A", [1/2, 3/5]), ("A", [7/10, 4/5]), ("B", [1/5, 3/10])]
        = [("A", ⟨2, [[1/2, 3/5], [7/10, 4/5]]⟩), ("B", ⟨1, [[1/5, 3/10]]⟩)] := by
      simp +decide [accumulate, addSample]
    rw [hacc]
    norm_num [compute_overall, mean_axis0, sum_axis0, scaleBy, divideBy, List.range_succ]

/-- Witness for C1 at a concrete one-sample stream. -/
theorem c1_overall_is_weighted_average_witness :
    compute_overall (run_test_iou [1/4] [⟨"A", [1/2], [1]⟩]) 1
      = weighted_overall (run_test_iou [1/4] [⟨"A", [1/2], [1]⟩]) :=
  (c1_overall_is_weighted_average [1/4] [⟨"A", [1/2], [1]⟩] (by simp)).1

/-- C2: for every fused volume, every ground-truth volume with values in
{0,1} and every configured threshold list, the per-sample IoU vector of
src/core/test.py lines 120-125 is exactly the spec's formula — binarize at
τ (value ≥ τ → 1 else 0), intersection = sum of the elementwise AND with
the ground truth, union = count of positions where binarized prediction
plus ground truth is ≥ 1, IoU = intersection / union — with thresholds in
their configured order. -/
theorem c2_sample_iou_matches_spec (gen gt : Volume) (threshs : List ℚ)
    (hgt : ∀ x ∈ gt, x = 0 ∨ x = 1) :
    sample_iou gen gt threshs = spec_sample_iou gen gt threshs := by
  unfold sample_iou spec_sample_iou
  refine List.map_congr_left (fun th _ => ?_)
  show iou_at gen gt th = _
  unfold iou_at
  have hbin : gen.map (fun x => if x ≥ th then (1 : ℚ) else 0) = ge_float gen th := rfl
  simp only [hbin]
  have := sum_mul_eq_and_sum (ge_float gen th) gt (ge_float_mem gen th) hgt
  simp only [sum_mul, union_count] at this ⊢
  rw [this]

/-- Witness for C2 at a concrete binary ground truth. -/
theorem c2_sample_iou_matches_spec_witness :
    (∀ x ∈ ([1, 0] : Volume), x = 0 ∨ x = 1) ∧
    sample_iou [1/2, 3/4] [1, 0] [1/4, 2/3]
      = spec_sample_iou [1/2, 3/4] [1, 0] [1/4, 2/3] :=
  ⟨by decide, c2_sample_iou_matches_spec [1/2, 3/4] [1, 0] [1/4, 2/3] (by decide)⟩

/-- C3: when the structured volume container read by
`ShapeNetDataset.get_datum` (src/utils/data_loaders.py lines 70-76) yields
no data, the process terminates immediately via `sys.exit(2)` — a non-zero
exit status — and no sample is returned; when the container holds the
`Volume` payload, no termination occurs and the loaded volume is
returned. -/
theorem c3_empty_volume_exits (mat : List (String × Volume)) :
    (mat.isEmpty = true →
      load_volume mat = VolumeResult.procExit 2 ∧ (2 : Nat) ≠ 0) ∧
    (∀ v, mat.lookup "Volume" = some v → load_volume mat = VolumeResult.ok v) := by
  constructor
  · intro h
    refine ⟨?_, by decide⟩
    simp [load_volume, h]
  · intro v hv
    have hne : mat.isEmpty = false := by
      cases mat with
      | nil => simp [List.lookup] at hv
      | cons p t => rfl
    simp [load_volume, hne, hv]

/-- Witness for C3: the empty container exits with status 2, a singleton
container with the `Volume` field returns its payload. -/
theorem c3_empty_volume_exits_witness :
    load_volume [] = VolumeResult.procExit 2 ∧
    load_volume [("Volume", ([1, 0] : Volume))] = VolumeResult.ok [1, 0] :=
  ⟨((c3_empty_volume_exits []).1 rfl).1,
   (c3_empty_volume_exits [("Volume", [1, 0])]).2 [1, 0] (by decide)⟩

/-- C5 (code bug): the disparity-loss expression at src/core/test.py lines
111-112 refers to the names `mse_loss`, `left_depth_images` and
`right_depth_images`, none of which is bound anywhere in the module scope
of src/core/test.py or inside `test_net` — Python raises `NameError` there
for every processed sample, so no disparity loss is ever recorded by the
accumulator. -/
theorem c5_disparity_loss_names_unbound :
    "mse_loss" ∈ disparity_loss_refs ∧
    "left_depth_images" ∈ disparity_loss_refs ∧
    "right_depth_images" ∈ disparity_loss_refs ∧
    "mse_loss" ∉ test_py_visible_names ∧
    "left_depth_images" ∉ test_py_visible_names ∧
    "right_depth_images" ∉ test_py_visible_names := by
  decide

/-- C6: for every pair of left and right volume estimates of identical
shape returned by the reconstruction model (each occupying one dim-1
slice), the fused volume of src/core/test.py lines 107-108 equals the
elementwise mean of the two estimates — each fused voxel is
(left voxel + right voxel) / 2 — and coincides with stacking the two
volumes along a new axis and averaging over that axis. -/
theorem c6_fusion_is_elementwise_mean (lv rv : Volume) (hlen : lv.length = rv.length) :
    fuse_volumes (recnet_output lv) (recnet_output rv)
      = List.zipWith (fun a b => (a + b) / 2) lv rv ∧
    fuse_volumes (recnet_output lv) (recnet_output rv) = spec_stack_mean lv rv := by
  refine ⟨?_, rfl⟩
  show mean_axis0 [lv, rv] = _
  apply List.ext_getElem
  · simp [mean_axis0, hlen]
  · intro i h1 h2
    simp only [mean_axis0, List.getElem_map, List.getElem_range, List.map_cons,
      List.map_nil, List.sum_cons, List.sum_nil, List.length_cons, List.length_nil,
      List.getElem_zipWith]
    have hi : i < lv.length := by simpa [mean_axis0] using h1
    rw [List.getD_eq_getElem lv 0 hi, List.getD_eq_getElem rv 0 (hlen ▸ hi)]
    push_cast
    ring

/-- Witness for C6 at a concrete pair of single-voxel volumes. -/
theorem c6_fusion_is_elementwise_mean_witness :
    fuse_volumes (recnet_output [0]) (recnet_output [1])
      = List.zipWith (fun a b => (a + b) / 2) [0] [1] :=
  (c6_fusion_is_elementwise_mean [0] [1] rfl).1

/-- C7: for every fused volume, every ground-truth volume with values in
{0,1} and every threshold, when the union computed at src/core/test.py
line 124 is strictly positive the IoU of line 125 lies in [0,1]. -/
theorem c7_iou_in_unit_interval (gen gt : Volume) (th : ℚ)
    (hgt : ∀ x ∈ gt, x = 0 ∨ x = 1)
    (hu : 0 < union_count (ge_float gen th) gt) :
    0 ≤ iou_at gen gt th ∧ iou_at gen gt th ≤ 1 := by
  obtain ⟨h0, h1⟩ := sum_mul_nonneg_le_union (ge_float gen th) gt (ge_float_mem gen th) hgt
  unfold iou_at
  refine ⟨div_nonneg h0 hu.le, ?_⟩
  rw [div_le_one hu]
  exact h1

/-- Witness for C7 at a concrete sample with positive union. -/
theorem c7_iou_in_unit_interval_witness :
    (∀ x ∈ ([1] : Volume), x = 0 ∨ x = 1) ∧
    0 < union_count (ge_float [1/2] (1/4)) [1] ∧
    0 ≤ iou_at [1/2] [1] (1/4) ∧ iou_at [1/2] [1] (1/4) ≤ 1 :=
  ⟨by decide, by norm_num [union_count, ge_float],
   c7_iou_in_unit_interval [1/2] [1] (1/4) (by decide)
     (by norm_num [union_count, ge_float])⟩

/-- C4: the sample index built by `get_files_of_taxonomy` contains a
descriptor for a sample if and only if the sample's resolved volume path
exists on the storage backend; a missing volume path only skips that sample
(the count of descriptors equals the count of samples whose volume path
exists, so the rest of the taxonomy is still processed), and a taxonomy
with zero surviving samples simply yields the empty list. -/
theorem c4_descriptor_iff_volume_exists (c : LoaderPaths) (tax : String)
    (samples : List String) (total_views : Nat) :
    (get_files_of_taxonomy c tax samples total_views).length
      = (samples.filter (fun s => c.pathExists (c.volumeTemplate tax s))).length ∧
    ∀ s ∈ samples,
      ((∃ d ∈ get_files_of_taxonomy c tax samples total_views, d.sample_name = s)
        ↔ c.pathExists (c.volumeTemplate tax s) = true) := by
  constructor
  · induction samples with
    | nil => rfl
    | cons a t ih =>
      by_cases h : c.pathExists (c.volumeTemplate tax a) <;>
        simp [get_files_of_taxonomy, List.filterMap_cons, List.filter_cons, h] at ih ⊢ <;>
        exact ih
  · intro s hs
    constructor
    · rintro ⟨d, hd, hname⟩
      unfold get_files_of_taxonomy at hd
      rw [List.mem_filterMap] at hd
      obtain ⟨s', hs', hfs'⟩ := hd
      by_cases h : c.pathExists (c.volumeTemplate tax s')
      · simp only [if_pos h] at hfs'
        have hd2 : descriptor_of c tax s' total_views = d := Option.some.inj hfs'
        have hss : s' = s := by rw [← hname, ← hd2]; rfl
        rw [← hss]
        exact h
      · simp only [if_neg h] at hfs'
        exact absurd hfs' (by simp)
    · intro h
      refine ⟨descriptor_of c tax s total_views, ?_, rfl⟩
      unfold get_files_of_taxonomy
      rw [List.mem_filterMap]
      exact ⟨s, hs, by simp [h]⟩

/-- Concrete path configuration used by the loader witnesses: one taxonomy
`t1` whose sample `bad` has no volume file on the backend. -/
def demoPaths : LoaderPaths where
  leftRgbTemplate := fun t s i => t ++ "/" ++ s ++ "/l_rgb_" ++ String.mk (List.replicate i 'i')
  rightRgbTemplate := fun t s i => t ++ "/" ++ s ++ "/r_rgb_" ++ String.mk (List.replicate i 'i')
  leftDispTemplate := fun t s i => t ++ "/" ++ s ++ "/l_disp_" ++ String.mk (List.replicate i 'i')
  rightDispTemplate := fun t s i => t ++ "/" ++ s ++ "/r_disp_" ++ String.mk (List.replicate i 'i')
  volumeTemplate := fun t s => t ++ "/" ++ s ++ "/volume"
  pathExists := fun p => p != "t1/bad/volume"

/-- Witness for C4: with one present and one missing volume file, the index
keeps exactly the sample whose volume exists. -/
theorem c4_descriptor_iff_volume_exists_witness :
    "good" ∈ ["good", "bad"] ∧
    (∃ d ∈ get_files_of_taxonomy demoPaths "t1" ["good", "bad"] 2,
      d.sample_name = "good") :=
  ⟨by decide,
   ((c4_descriptor_iff_volume_exists demoPaths "t1" ["good", "bad"] 2).2 "good"
     (by decide)).mpr (by decide)⟩

/-- C8: when every taxonomy bucket records the same (positive) sample
count, the sample-count-weighted overall mean IoU vector computed by
src/core/test.py lines 156-160 equals the simple unweighted elementwise
average of the per-taxonomy mean IoU vectors. -/
theorem c8_equal_counts_simple_average (m : TestIoU) (c : Nat) (hc : 0 < c)
    (hcount : ∀ p ∈ m, p.2.n_samples = c) :
    compute_overall m (total_samples m) = simple_average m := by
  have hmap : m.map (fun p => scaleBy (mean_axis0 p.2.iou) (p.2.n_samples : ℚ))
      = (m.map (fun p => mean_axis0 p.2.iou)).map (fun v => scaleBy v (c : ℚ)) := by
    rw [List.map_map]
    exact List.map_congr_left (fun p hp => by simp [Function.comp, hcount p hp])
  unfold compute_overall simple_average
  rw [hmap, sum_axis0_scaleBy, total_samples_const c m hcount]
  unfold divideBy scaleBy
  rw [List.map_map]
  refine List.map_congr_left (fun x _ => ?_)
  simp only [Function.comp]
  have hcq : (c : ℚ) ≠ 0 := (Nat.cast_pos.mpr hc).ne'
  push_cast
  rw [mul_div_mul_right _ _ hcq]

/-- Witness for C8 at two buckets of one sample each. -/
theorem c8_equal_counts_simple_average_witness :
    (0 : Nat) < 1 ∧
    compute_overall [("A", ⟨1, [[1/2]]⟩), ("B", ⟨1, [[1/4]]⟩)]
        (total_samples [("A", ⟨1, [[1/2]]⟩), ("B", ⟨1, [[1/4]]⟩)])
      = simple_average [("A", ⟨1, [[1/2]]⟩), ("B", ⟨1, [[1/4]]⟩)] :=
  ⟨by decide,
   c8_equal_counts_simple_average [("A", ⟨1, [[1/2]]⟩), ("B", ⟨1, [[1/4]]⟩)] 1
     (by decide) (by decide)⟩

/-- C9: at every point of the evaluation pass (i.e. after processing any
sample stream), every per-sample IoU vector stored in any taxonomy bucket
of `test_iou` has length equal to the number of configured thresholds, and
therefore the per-taxonomy mean IoU vector of every taxonomy with at least
one sample has that length as well. -/
theorem c9_bucket_vectors_have_threshold_length (threshs : List ℚ)
    (stream : List TestSample) (tid : String) (b : Bucket)
    (hmem : (tid, b) ∈ run_test_iou threshs stream) :
    (∀ v ∈ b.iou, v.length = threshs.length) ∧
    (b.iou ≠ [] → (mean_axis0 b.iou).length = threshs.length) := by
  have hinv : bucketLenInv threshs.length (run_test_iou threshs stream) := by
    unfold run_test_iou accumulate
    refine bucketLenInv_foldl threshs.length _ []
      (fun p hp => absurd hp (List.not_mem_nil p)) ?_
    intro e he
    rw [List.mem_map] at he
    obtain ⟨smp, -, rfl⟩ := he
    simp [sample_iou]
  have hvecs : ∀ v ∈ b.iou, v.length = threshs.length :=
    fun v hv => hinv (tid, b) hmem v hv
  refine ⟨hvecs, fun hne => ?_⟩
  cases hiou : b.iou with
  | nil => exact absurd hiou hne
  | cons v vs =>
    have hv : v.length = threshs.length := hvecs v (by rw [hiou]; exact List.mem_cons_self _ _)
    simp [mean_axis0, hv]

/-- Witness for C9 at a one-sample stream with one threshold. -/
theorem c9_bucket_vectors_have_threshold_length_witness :
    ("A", (⟨1, [[1]]⟩ : Bucket)) ∈ run_test_iou [1/4] [⟨"A", [1/2], [1]⟩] ∧
    ∀ v ∈ (Bucket.mk 1 [[1]]).iou, v.length = 1 := by
  have hmem : ("A", (⟨1, [[1]]⟩ : Bucket)) ∈ run_test_iou [1/4] [⟨"A", [1/2], [1]⟩] := by
    norm_num [run_test_iou, accumulate, addSample, sample_iou, iou_at, ge_float,
      sum_mul, union_count]
  exact ⟨hmem, (c9_bucket_vectors_have_threshold_length [1/4] [⟨"A", [1/2], [1]⟩]
    "A" ⟨1, [[1]]⟩ hmem).1⟩

/-- C10: every descriptor built by the index builder has its four per-view
path lists of length exactly `total_views`, and any view index below that
length — in particular the one drawn by `random.choice` over
`range(len(left_rgb_images))` — indexes validly into all four lists and
selects the four paths of the same view. -/
theorem c10_view_path_lists_aligned (c : LoaderPaths) (tax : String)
    (samples : List String) (total_views : Nat) (d : SampleDescriptor)
    (hd : d ∈ get_files_of_taxonomy c tax samples total_views) :
    d.left_rgb_images.length = total_views ∧
    d.right_rgb_images.length = total_views ∧
    d.left_disp_images.length = total_views ∧
    d.right_disp_images.length = total_views ∧
    ∀ i < total_views,
      select_views d i = some (c.leftRgbTemplate tax d.sample_name i,
        c.rightRgbTemplate tax d.sample_name i,
        c.leftDispTemplate tax d.sample_name i,
        c.rightDispTemplate tax d.sample_name i) := by
  unfold get_files_of_taxonomy at hd
  rw [List.mem_filterMap] at hd
  obtain ⟨s, hs, hfs⟩ := hd
  by_cases h : c.pathExists (c.volumeTemplate tax s)
  · simp only [if_pos h] at hfs
    obtain rfl := Option.some.inj hfs
    refine ⟨by simp [descriptor_of], by simp [descriptor_of], by simp [descriptor_of],
      by simp [descriptor_of], ?_⟩
    intro i hi
    simp [select_views, descriptor_of, List.getElem?_map, List.getElem?_range, hi]
  · simp only [if_neg h] at hfs
    exact absurd hfs (by simp)

/-- Witness for C10 at the demo configuration with two views. -/
theorem c10_view_path_lists_aligned_witness :
    descriptor_of demoPaths "t1" "good" 2 ∈
      get_files_of_taxonomy demoPaths "t1" ["good", "bad"] 2 ∧
    (descriptor_of demoPaths "t1" "good" 2).left_rgb_images.length = 2 :=
  ⟨by decide,
   (c10_view_path_lists_aligned demoPaths "t1" ["good", "bad"] 2
     (descriptor_of demoPaths "t1" "good" 2) (by decide)).1⟩

end StereoRecon
